import Mathlib

/-!
Shallow embedding of the core of `src/app.py` (a protein target-and-sequence
resolution pipeline) and proofs of the specified properties.

External effects (HTTP requests, generative-model calls, the JSON parser and
the user-visible error surface) are modelled as explicit oracle arguments and
outcome types; a Python exception inside modelled code is an `Option`/`Except`
failure value.  Python strings are Lean `String`s (lists of characters), and
Python dicts whose values are only ever passed through `str` are association
lists of strings in insertion order.
-/

namespace AgentPlatform

/-! ## Python-style character and string primitives -/

/-- The double-quote character, written via its code point. -/
def dquote : Char := Char.ofNat 34

/-- The single-quote character, written via its code point. -/
def squote : Char := Char.ofNat 39

/-- Newline, written via its code point. -/
def nlChar : Char := Char.ofNat 10

/-- The plain space character U+0020. -/
def spaceChar : Char := ' '

/-- Is `c` one of the two quote characters stripped by `.strip('"\x27')`? -/
def isQuote (c : Char) : Bool := c == dquote || c == squote

/-- Drop characters satisfying `p` from both ends of a character list;
the common shape of Python's `str.strip` family. -/
def dropEnds (p : Char → Bool) (cs : List Char) : List Char :=
  ((cs.dropWhile p).reverse.dropWhile p).reverse

/-- Python `str.strip()` (no argument): remove leading and trailing whitespace. -/
def pyStrip (cs : List Char) : List Char :=
  dropEnds (fun c => c.isWhitespace) cs

/-- Python `str.strip('"\x27')`: remove leading and trailing quote characters. -/
def stripQuotes (cs : List Char) : List Char :=
  dropEnds isQuote cs

/-- `String` version of `pyStrip`. -/
def pyStripStr (s : String) : String :=
  String.mk (pyStrip s.data)

/-- Worker for `pyTokens`: scans the characters, `cur` holding the current
(reversed) run of non-whitespace characters. -/
def pyTokensAux : List Char → List Char → List (List Char)
  | cur, [] => if cur.isEmpty then [] else [cur.reverse]
  | cur, c :: cs =>
    if c.isWhitespace then
      if cur.isEmpty then pyTokensAux [] cs
      else cur.reverse :: pyTokensAux [] cs
    else pyTokensAux (c :: cur) cs

/-- Python `str.split()` (no argument): the maximal runs of non-whitespace
characters; empty tokens never appear. -/
def pyTokens (cs : List Char) : List (List Char) :=
  pyTokensAux [] cs

/-- Python `s.split('\x0an', 1)[-1]`: everything after the first newline when
one exists, the whole string otherwise. -/
def afterFirstNewline (cs : List Char) : List Char :=
  if cs.contains nlChar then (cs.dropWhile (fun c => c != nlChar)).tail else cs

/-- Python `s.replace(' ', '')`: removes space characters (U+0020) only. -/
def removeSpaces (cs : List Char) : List Char :=
  cs.filter (fun c => c != spaceChar)

/-! ## Data model: target entries and the name normalizer (`safe_protein_name`) -/

/-- A discovered target entry: either a plain (already `str`-coerced) textual
value, or a structured record — a dict, kept as its key/value pairs in
insertion order, values already `str`-coerced. -/
inductive TargetEntry where
  | str (s : String)
  | record (fields : List (String × String))

/-- Python `dict.get(key)` on the association-list model (keys are unique in a
real dict, so first match is the match). -/
def pyDictLookup (fields : List (String × String)) (key : String) : Option String :=
  (fields.find? (fun kv => kv.1 == key)).map (fun kv => kv.2)

/-- `safe_protein_name` from `src/app.py`:

* dict case: `str(protein.get('name', protein.get('proteinName', list(protein.values())[0])))`.
  Python evaluates `list(protein.values())[0]` eagerly, so an empty dict raises
  `IndexError` (`none`) before any lookup; otherwise the `name` value, else the
  `proteinName` value, else the first value in insertion order.
* other case: `str(protein).split()[0].strip('"\x27')`.  `split()` of a string
  with no non-whitespace characters is empty, so `[0]` raises `IndexError`
  (`none`); otherwise the first token with quote characters stripped. -/
def safe_protein_name : TargetEntry → Option String
  | .record fields =>
    match fields with
    | [] => none
    | kv :: _ =>
      some ((pyDictLookup fields "name").getD
        ((pyDictLookup fields "proteinName").getD kv.2))
  | .str s =>
    match pyTokens s.data with
    | [] => none
    | t :: _ => some (String.mk (stripQuotes t))

/-! ## Sequence records and the primary provider (`search_uniprot_safe`) -/

/-- One resolved sequence, as built by `src/app.py`: a dict with keys
`name`, `sequence`, `source`; `source` is one of the string literals
`"UniProt"`, `"GPT-4"`, `"Failed"` used by the code. -/
structure SequenceRecord where
  name : String
  sequence : String
  source : String
deriving DecidableEq, Repr

/-- One entry of the UniProt payload's `results` array.  The code reads
`entry['proteinName']['value']` and `entry['sequence']['value']`; a `none`
field models a payload where that key path is absent (a `KeyError` in
Python). -/
structure UniProtEntry where
  proteinName : Option String
  sequence : Option String
deriving DecidableEq, Repr

/-- The JSON payload shape `search_uniprot_safe` reads: an object with a
`results` array. -/
structure UniProtPayload where
  results : List UniProtEntry
deriving DecidableEq, Repr

/-- Outcome of `requests.get(url, timeout=10)` as observed by the caller:
either the request raised (connection error, timeout, ...), or a response
arrived with a status code and a body that either parses as the expected
JSON shape or fails to parse (`response.json()` raises). -/
inductive HttpOutcome where
  | transportError (msg : String)
  | response (status : Nat) (body : Except String UniProtPayload)

/-- `requests.Response.raise_for_status` raises exactly for client errors
(4xx) and server errors (5xx); informational, success and redirect statuses
do not raise. -/
def raiseForStatus (status : Nat) : Bool :=
  (400 ≤ status && status < 500) || (500 ≤ status && status < 600)

/-- `search_uniprot_safe` from `src/app.py`, as a function of the observed
HTTP outcome.  Every exception in the body (transport error,
`raise_for_status`, JSON parse failure, missing key) is caught by the
enclosing `try/except` and becomes `None`; an empty `results` array also
yields `None`.  On success it returns the record
`(proteinName.value, sequence.value, "UniProt")` of the first result. -/
def search_uniprot_safe (o : HttpOutcome) : Option SequenceRecord :=
  match o with
  | .transportError _ => none
  | .response status body =>
    if raiseForStatus status then none
    else
      match body with
      | .error _ => none
      | .ok data =>
        match data.results with
        | [] => none
        | e :: _ =>
          match e.proteinName, e.sequence with
          | some n, some s => some ⟨n, s, "UniProt"⟩
          | some _, none => none
          | none, _ => none

/-- The sequence value of the first entry of a successful response's
`results` array, when there is one. -/
def firstSequenceValue (o : HttpOutcome) : Option String :=
  match o with
  | .response _ (.ok data) =>
    match data.results with
    | e :: _ => e.sequence
    | [] => none
  | _ => none

/-- The protein display name of the first entry of a successful response's
`results` array, when there is one. -/
def firstProteinNameValue (o : HttpOutcome) : Option String :=
  match o with
  | .response _ (.ok data) =>
    match data.results with
    | e :: _ => e.proteinName
    | [] => none
  | _ => none

/-- The conditions under which the primary provider yields no result: the
request raised, `raise_for_status` raised (4xx/5xx), the body failed to parse
as JSON, or the `results` array is empty. -/
def primaryMissCondition : HttpOutcome → Bool
  | .transportError _ => true
  | .response status body =>
    raiseForStatus status ||
      (match body with
       | .error _ => true
       | .ok data => data.results.isEmpty)

/-! ## Fallback provider and the per-name chain (`get_amino_acid_sequences`) -/

/-- Outcome of the fallback `client.chat.completions.create` call together
with reading `response.choices[0].message.content`: either a text was
obtained, or some exception was raised. -/
inductive FallbackOutcome where
  | ok (text : String)
  | raises (msg : String)
deriving DecidableEq, Repr

/-- Post-processing of the fallback response text in `src/app.py`:
`fasta = content.strip()`, then `fasta.split('\x0an', 1)[-1]` (everything
after the first newline, or the whole string when there is none), then
`.replace(' ', '')` (space characters only). -/
def gptPostProcess (text : String) : String :=
  String.mk (removeSpaces (afterFirstNewline (pyStrip text.data)))

/-- Modelled from the spec (§4.3), for comparison with `gptPostProcess`:
discard the first line of the response and remove all internal whitespace
from the remainder. -/
def spec_gptPostProcess (text : String) : String :=
  String.mk (((text.data.dropWhile (fun c => c != nlChar)).tail).filter
    (fun c => !c.isWhitespace))

/-- The record built from the fallback outcome for `name`: on success the
post-processed text tagged `"GPT-4"`; when the call raises, the
`except Exception as e` branch builds `(name, "Error: " ++ str(e), "Failed")`. -/
def fallbackRecord (fb : FallbackOutcome) (name : String) : SequenceRecord :=
  match fb with
  | .ok text => ⟨name, gptPostProcess text, "GPT-4"⟩
  | .raises msg => ⟨name, "Error: " ++ msg, "Failed"⟩

/-- One iteration of the loop in `get_amino_acid_sequences`, given the
outcomes of the external calls it makes for this name: if the UniProt search
yields a (truthy, hence any) record, append it and `continue`; otherwise run
the fallback, whose exception — the only possible one in the loop body — is
caught by the per-iteration `try/except`. -/
def resolveSequence (pri : HttpOutcome) (fb : FallbackOutcome) (name : String) :
    SequenceRecord :=
  match search_uniprot_safe pri with
  | some r => r
  | none => fallbackRecord fb name

/-- The `for name in processed_names` loop of `get_amino_acid_sequences`,
building `results` by appending one record per name; the oracles `pri` and
`fb` give the outcome of the external calls made at loop index `i`. -/
def sequencesLoop (pri : Nat → HttpOutcome) (fb : Nat → FallbackOutcome) :
    Nat → List String → List SequenceRecord
  | _, [] => []
  | i, name :: rest =>
    resolveSequence (pri i) (fb i) name :: sequencesLoop pri fb (i + 1) rest

/-- The `results` list produced by `get_amino_acid_sequences` on a list of
already-normalized names (the HTML rendering of `results` that follows in the
source is presentation, outside the record-producing core). -/
def resolveAll (pri : Nat → HttpOutcome) (fb : Nat → FallbackOutcome)
    (names : List String) : List SequenceRecord :=
  sequencesLoop pri fb 0 names

/-! ## Target discovery (`get_protein_targets`) -/

/-- A Python value as returned by `json.loads`. -/
inductive PyJson where
  | null
  | bool (b : Bool)
  | num (n : Int)
  | str (s : String)
  | arr (elems : List PyJson)
  | obj (fields : List (String × PyJson))

/-- Outcome of the discovery `client.chat.completions.create` call together
with reading `response.choices[0].message.content`. -/
inductive CallOutcome where
  | ok (content : String)
  | raises (msg : String)

/-- `get_protein_targets` from `src/app.py`, as a function of the model-call
outcome and of the JSON parser (`json.loads`, an oracle from strings to
parsed values or a parse error).  Returns the produced value together with
the number of `st.error` invocations: on any exception (call failure or
parse failure) it reports once and returns the empty list; on success it
returns `json.loads(content.strip())` unvalidated and reports nothing. -/
def get_protein_targets (call : CallOutcome)
    (loads : String → Except String PyJson) : PyJson × Nat :=
  match call with
  | .raises _ => (.arr [], 1)
  | .ok content =>
    match loads (pyStripStr content) with
    | .error _ => (.arr [], 1)
    | .ok v => (v, 0)

/-! ## Helper lemmas about the string primitives -/

theorem dropWhile_head?_false (p : Char → Bool) :
    ∀ (l : List Char) (c : Char), (l.dropWhile p).head? = some c → p c = false := by
  intro l
  induction l with
  | nil =>
    intro c h
    simp [List.dropWhile] at h
  | cons x xs ih =>
    intro c h
    rw [List.dropWhile_cons] at h
    by_cases hx : p x = true
    · rw [if_pos hx] at h
      exact ih c h
    · rw [if_neg hx] at h
      simp only [List.head?_cons, Option.some.injEq] at h
      rw [← h]
      simpa using hx

theorem dropWhile_getLast?_eq (p : Char → Bool) :
    ∀ (l : List Char), l.dropWhile p ≠ [] → (l.dropWhile p).getLast? = l.getLast? := by
  intro l
  induction l with
  | nil =>
    intro h
    simp [List.dropWhile] at h
  | cons x xs ih =>
    intro h
    rw [List.dropWhile_cons] at h ⊢
    by_cases hx : p x = true
    · rw [if_pos hx] at h ⊢
      have hxs : xs ≠ [] := by
        intro he
        rw [he] at h
        simp [List.dropWhile] at h
      rw [ih h]
      cases xs with
      | nil => exact absurd rfl hxs
      | cons y ys => rw [List.getLast?_cons_cons]
    · rw [if_neg hx]

theorem mem_of_mem_dropEnds (p : Char → Bool) (cs : List Char) (x : Char)
    (h : x ∈ dropEnds p cs) : x ∈ cs := by
  unfold dropEnds at h
  rw [List.mem_reverse] at h
  have h1 : x ∈ (cs.dropWhile p).reverse := (List.dropWhile_sublist p).subset h
  rw [List.mem_reverse] at h1
  exact (List.dropWhile_sublist p).subset h1

theorem dropEnds_head?_false (p : Char → Bool) (cs : List Char) (c : Char)
    (h : (dropEnds p cs).head? = some c) : p c = false := by
  unfold dropEnds at h
  rw [List.head?_reverse] at h
  have hne : List.dropWhile p (cs.dropWhile p).reverse ≠ [] := by
    intro he
    rw [he] at h
    simp at h
  rw [dropWhile_getLast?_eq p _ hne, List.getLast?_reverse] at h
  exact dropWhile_head?_false p cs c h

theorem dropEnds_getLast?_false (p : Char → Bool) (cs : List Char) (c : Char)
    (h : (dropEnds p cs).getLast? = some c) : p c = false := by
  unfold dropEnds at h
  rw [List.getLast?_reverse] at h
  exact dropWhile_head?_false p _ c h

theorem pyTokensAux_no_ws :
    ∀ (cs cur : List Char), (∀ x ∈ cur, x.isWhitespace = false) →
      ∀ t ∈ pyTokensAux cur cs, ∀ x ∈ t, x.isWhitespace = false := by
  intro cs
  induction cs with
  | nil =>
    intro cur hcur t ht x hx
    simp only [pyTokensAux] at ht
    by_cases hc : cur.isEmpty = true
    · rw [if_pos hc] at ht
      simp at ht
    · rw [if_neg hc] at ht
      simp only [List.mem_singleton] at ht
      subst ht
      exact hcur x (List.mem_reverse.mp hx)
  | cons c cs ih =>
    intro cur hcur t ht x hx
    simp only [pyTokensAux] at ht
    by_cases hw : c.isWhitespace = true
    · rw [if_pos hw] at ht
      by_cases hc : cur.isEmpty = true
      · rw [if_pos hc] at ht
        exact ih [] (by simp) t ht x hx
      · rw [if_neg hc] at ht
        rcases List.mem_cons.mp ht with h1 | h1
        · subst h1
          exact hcur x (List.mem_reverse.mp hx)
        · exact ih [] (by simp) t h1 x hx
    · rw [if_neg hw] at ht
      refine ih (c :: cur) ?_ t ht x hx
      intro y hy
      rcases List.mem_cons.mp hy with h1 | h1
      · subst h1
        simpa using hw
      · exact hcur y h1

theorem pyTokensAux_ne_nil :
    ∀ (cs cur : List Char),
      ((∃ x ∈ cs, x.isWhitespace = false) ∨ cur ≠ []) → pyTokensAux cur cs ≠ [] := by
  intro cs
  induction cs with
  | nil =>
    intro cur h
    rcases h with h | h
    · simp at h
    · simp only [pyTokensAux]
      rw [if_neg (by simpa [List.isEmpty_iff] using h)]
      simp
  | cons c cs ih =>
    intro cur h
    simp only [pyTokensAux]
    by_cases hw : c.isWhitespace = true
    · rw [if_pos hw]
      by_cases hc : cur.isEmpty = true
      · rw [if_pos hc]
        apply ih
        left
        rcases h with ⟨x, hx, hxw⟩ | h
        · rcases List.mem_cons.mp hx with h1 | h1
          · subst h1
            rw [hw] at hxw
            cases hxw
          · exact ⟨x, h1, hxw⟩
        · exact absurd (List.isEmpty_iff.mp hc) h
      · rw [if_neg hc]
        simp
    · rw [if_neg hw]
      apply ih
      right
      simp

/-! ## Helper lemmas about the resolution loop -/

theorem sequencesLoop_length (pri : Nat → HttpOutcome) (fb : Nat → FallbackOutcome) :
    ∀ (names : List String) (i : Nat),
      (sequencesLoop pri fb i names).length = names.length := by
  intro names
  induction names with
  | nil =>
    intro i
    rfl
  | cons n rest ih =>
    intro i
    simp [sequencesLoop, ih]

theorem sequencesLoop_getElem? (pri : Nat → HttpOutcome) (fb : Nat → FallbackOutcome) :
    ∀ (names : List String) (i j : Nat),
      (sequencesLoop pri fb i names)[j]? =
        (names[j]?).map (fun n => resolveSequence (pri (i + j)) (fb (i + j)) n) := by
  intro names
  induction names with
  | nil =>
    intro i j
    simp [sequencesLoop]
  | cons n rest ih =>
    intro i j
    cases j with
    | zero =>
      simp [sequencesLoop]
    | succ k =>
      have hik : i + (k + 1) = (i + 1) + k := by omega
      simp only [sequencesLoop, List.getElem?_cons_succ, hik]
      exact ih (i + 1) k

theorem resolveAll_getElem? (pri : Nat → HttpOutcome) (fb : Nat → FallbackOutcome)
    (names : List String) (j : Nat) :
    (resolveAll pri fb names)[j]? =
      (names[j]?).map (fun n => resolveSequence (pri j) (fb j) n) := by
  have h := sequencesLoop_getElem? pri fb names 0 j
  simpa [resolveAll] using h

/-- Characterization of a successful primary lookup: the record is tagged
`"UniProt"` and carries exactly the display name and sequence value found in
the first entry of the payload's `results` array. -/
theorem search_success_inv (o : HttpOutcome) (r : SequenceRecord)
    (h : search_uniprot_safe o = some r) :
    r.source = "UniProt" ∧ firstProteinNameValue o = some r.name ∧
      firstSequenceValue o = some r.sequence := by
  cases o with
  | transportError m =>
    simp [search_uniprot_safe] at h
  | response status body =>
    by_cases hs : raiseForStatus status = true
    · simp [search_uniprot_safe, hs] at h
    · cases body with
      | error e =>
        simp [search_uniprot_safe, hs] at h
      | ok data =>
        cases hres : data.results with
        | nil =>
          simp [search_uniprot_safe, hs, hres] at h
        | cons e rest =>
          cases hn : e.proteinName with
          | none =>
            simp [search_uniprot_safe, hs, hres, hn] at h
          | some n =>
            cases hsq : e.sequence with
            | none =>
              simp [search_uniprot_safe, hs, hres, hn, hsq] at h
            | some s =>
              simp only [search_uniprot_safe, hs, hres, hn, hsq, if_neg,
                Bool.false_eq_true, not_false_iff, Option.some.injEq] at h
              subst h
              simp [firstProteinNameValue, firstSequenceValue, hres, hn, hsq]

/-! ## Claim theorems -/

/-- C1: if for the `j`-th canonical name the primary provider yields no
result and the fallback call raises, the chain does not propagate the
exception (`resolveSequence` is a total function into `SequenceRecord`):
the `j`-th record is `(name, "Error: " ++ msg, "Failed")`, its sequence is a
non-empty error description, and every name in the list still yields its own
record. -/
theorem claim_C1_total_failure_isolated (pri : Nat → HttpOutcome)
    (fb : Nat → FallbackOutcome) (names : List String) (j : Nat)
    (name msg : String)
    (hname : names[j]? = some name)
    (hmiss : search_uniprot_safe (pri j) = none)
    (hfb : fb j = FallbackOutcome.raises msg) :
    (resolveAll pri fb names)[j]? =
        some ⟨name, "Error: " ++ msg, "Failed"⟩ ∧
      ("Error: " ++ msg) ≠ "" ∧
      (resolveAll pri fb names).length = names.length ∧
      (∀ k, k < names.length → ∃ r, (resolveAll pri fb names)[k]? = some r) := by
  refine ⟨?_, ?_, ?_, ?_⟩
  · rw [resolveAll_getElem?, hname]
    simp [resolveSequence, hmiss, hfb, fallbackRecord]
  · intro h
    have h2 := congrArg String.length h
    rw [String.length_append] at h2
    have h7 : ("Error: " : String).length = 7 := rfl
    have h0 : ("" : String).length = 0 := rfl
    omega
  · exact sequencesLoop_length pri fb names 0
  · intro k hk
    rw [resolveAll_getElem?, List.getElem?_eq_getElem hk]
    exact ⟨_, rfl⟩

/-- C1 witness: a two-name run in which the first name hits the total-failure
path; both names still get records. -/
theorem claim_C1_total_failure_isolated_witness :
    (resolveAll (fun _ => HttpOutcome.transportError "t")
        (fun _ => FallbackOutcome.raises "boom") ["SOD1", "TARDBP"])[0]? =
        some ⟨"SOD1", "Error: " ++ "boom", "Failed"⟩ ∧
      ("Error: " ++ "boom") ≠ "" ∧
      (resolveAll (fun _ => HttpOutcome.transportError "t")
        (fun _ => FallbackOutcome.raises "boom") ["SOD1", "TARDBP"]).length =
        (["SOD1", "TARDBP"] : List String).length ∧
      (∀ k, k < (["SOD1", "TARDBP"] : List String).length →
        ∃ r, (resolveAll (fun _ => HttpOutcome.transportError "t")
          (fun _ => FallbackOutcome.raises "boom") ["SOD1", "TARDBP"])[k]? =
            some r) :=
  claim_C1_total_failure_isolated _ _ _ 0 "SOD1" "boom" rfl rfl rfl

/-- C2: the chain produces exactly one record per input name, and the `j`-th
output record is the resolution of the `j`-th input name with the `j`-th
call outcomes (order-preserving). -/
theorem claim_C2_one_record_per_name (pri : Nat → HttpOutcome)
    (fb : Nat → FallbackOutcome) (names : List String) :
    (resolveAll pri fb names).length = names.length ∧
      ∀ j, (resolveAll pri fb names)[j]? =
        (names[j]?).map (fun n => resolveSequence (pri j) (fb j) n) :=
  ⟨sequencesLoop_length pri fb names 0,
    fun j => resolveAll_getElem? pri fb names j⟩

/-- C3 counterexample: `safe_protein_name` raises `IndexError` (modelled as
`none`) on the empty string, on an all-whitespace string and on the empty
record, so it is not exception-free on every input. -/
theorem claim_C3_counterexample_empty_inputs :
    safe_protein_name (TargetEntry.str "") = none ∧
      safe_protein_name (TargetEntry.str " ") = none ∧
      safe_protein_name (TargetEntry.record []) = none :=
  ⟨by decide, by decide, rfl⟩

/-- C3 amended: `safe_protein_name` returns a value (raises no exception) on
every string containing at least one non-whitespace character and on every
non-empty record; on the empty/whitespace-only string and on the empty
record it raises `IndexError`. -/
theorem claim_C3_amended_total_on_nonempty :
    (∀ s : String, (∃ c ∈ s.data, c.isWhitespace = false) →
      (safe_protein_name (TargetEntry.str s)).isSome = true) ∧
    (∀ fields : List (String × String), fields ≠ [] →
      (safe_protein_name (TargetEntry.record fields)).isSome = true) := by
  constructor
  · intro s hs
    have h : pyTokens s.data ≠ [] := pyTokensAux_ne_nil s.data [] (Or.inl hs)
    rcases hp : pyTokens s.data with _ | ⟨t, ts⟩
    · exact absurd hp h
    · simp [safe_protein_name, hp]
  · intro fields hf
    cases fields with
    | nil => exact absurd rfl hf
    | cons kv rest => simp [safe_protein_name]

/-- C3 amended witness: a string with a non-whitespace character and a
non-empty record both normalize successfully. -/
theorem claim_C3_amended_total_on_nonempty_witness :
    (safe_protein_name (TargetEntry.str " SOD1")).isSome = true ∧
      (safe_protein_name (TargetEntry.record [("accession", "P00441")])).isSome =
        true :=
  ⟨claim_C3_amended_total_on_nonempty.1 " SOD1" ⟨'S', by decide, by decide⟩,
    claim_C3_amended_total_on_nonempty.2 [("accession", "P00441")] (by decide)⟩

/-- C4 counterexample: in the structured-record case `safe_protein_name`
returns the chosen field value verbatim — here with leading and trailing
whitespace — so the claimed stripping does not hold for record inputs. -/
theorem claim_C4_counterexample_record_not_stripped :
    safe_protein_name (TargetEntry.record [("name", " SOD1 ")]) =
        some " SOD1 " ∧
      (" SOD1 " : String).data.head? = some spaceChar ∧
      spaceChar.isWhitespace = true :=
  ⟨by decide, by decide, by decide⟩

/-- C4 amended: for string entries on which `safe_protein_name` succeeds, the
result contains no whitespace at all (hence none leading or trailing) and
has no leading or trailing quote character; structured-record entries are
returned unstripped (see the counterexample). -/
theorem claim_C4_amended_string_case_stripped (s r : String)
    (h : safe_protein_name (TargetEntry.str s) = some r) :
    (∀ c ∈ r.data, c.isWhitespace = false) ∧
      (∀ c, r.data.head? = some c → isQuote c = false) ∧
      (∀ c, r.data.getLast? = some c → isQuote c = false) := by
  rcases hp : pyTokens s.data with _ | ⟨t, ts⟩
  · simp [safe_protein_name, hp] at h
  · simp only [safe_protein_name, hp] at h
    have hdata : r.data = stripQuotes t := by
      rw [← Option.some.inj h]
    have htmem : t ∈ pyTokens s.data := by
      rw [hp]
      exact List.mem_cons_self t ts
    refine ⟨?_, ?_, ?_⟩
    · intro c hc
      rw [hdata] at hc
      exact pyTokensAux_no_ws s.data [] (by simp) t htmem c
        (mem_of_mem_dropEnds isQuote t c hc)
    · intro c hc
      rw [hdata] at hc
      exact dropEnds_head?_false isQuote t c hc
    · intro c hc
      rw [hdata] at hc
      exact dropEnds_getLast?_false isQuote t c hc

/-- C4 amended witness: a quoted, multi-word string normalizes to a bare
token. -/
theorem claim_C4_amended_string_case_stripped_witness :
    (∀ c ∈ ("SOD1" : String).data, c.isWhitespace = false) ∧
      (∀ c, ("SOD1" : String).data.head? = some c → isQuote c = false) ∧
      (∀ c, ("SOD1" : String).data.getLast? = some c → isQuote c = false) :=
  claim_C4_amended_string_case_stripped "\u0022SOD1\u0022 protein" "SOD1"
    (by decide)

/-- C5: the discovery service returns the empty list and reports the error
exactly once whenever the model call raises or the stripped response fails
to parse as JSON; on a successful parse it returns the parsed value, however
shaped, and reports nothing. -/
theorem claim_C5_discovery_error_path (call : CallOutcome)
    (loads : String → Except String PyJson) :
    (∀ m, call = CallOutcome.raises m →
        get_protein_targets call loads = (PyJson.arr [], 1)) ∧
      (∀ content e, call = CallOutcome.ok content →
        loads (pyStripStr content) = Except.error e →
        get_protein_targets call loads = (PyJson.arr [], 1)) ∧
      (∀ content v, call = CallOutcome.ok content →
        loads (pyStripStr content) = Except.ok v →
        get_protein_targets call loads = (v, 0)) := by
  refine ⟨?_, ?_, ?_⟩
  · intro m hm
    subst hm
    rfl
  · intro content e hc hl
    subst hc
    simp [get_protein_targets, hl]
  · intro content v hc hl
    subst hc
    simp [get_protein_targets, hl]

/-- C5 witness: a raising discovery call yields the empty list with exactly
one error report. -/
theorem claim_C5_discovery_error_path_witness :
    get_protein_targets (CallOutcome.raises "connection error")
        (fun _ => Except.error "x") = (PyJson.arr [], 1) :=
  (claim_C5_discovery_error_path (CallOutcome.raises "connection error")
    (fun _ => Except.error "x")).1 "connection error" rfl

/-- C6 counterexample: `raise_for_status` raises only for 4xx/5xx statuses,
so a non-2xx status (here 304) whose body parses with a non-empty `results`
array makes the primary provider return a record, and the fallback is not
invoked — contradicting the claim for arbitrary non-2xx statuses. -/
theorem claim_C6_counterexample_304 :
    search_uniprot_safe
        (HttpOutcome.response 304 (Except.ok ⟨[⟨some "Nme", some "SEQ"⟩]⟩)) =
        some ⟨"Nme", "SEQ", "UniProt"⟩ ∧
      resolveSequence
        (HttpOutcome.response 304 (Except.ok ⟨[⟨some "Nme", some "SEQ"⟩]⟩))
        (FallbackOutcome.raises "provider down") "input name" =
        ⟨"Nme", "SEQ", "UniProt"⟩ ∧
      ¬ (200 ≤ 304 ∧ 304 < 300) :=
  ⟨rfl, rfl, by omega⟩

/-- C6 amended: whenever the primary lookup hits a transport error, a 4xx or
5xx status, a JSON parse failure, or an empty result set, it yields no
result rather than raising; in exactly the no-result case the chain uses the
fallback-derived record, and on a primary hit it uses that record (so the
fallback is invoked only in the no-result case). -/
theorem claim_C6_amended_miss_then_fallback (o : HttpOutcome)
    (fb : FallbackOutcome) (name : String) :
    (primaryMissCondition o = true → search_uniprot_safe o = none) ∧
      (search_uniprot_safe o = none →
        resolveSequence o fb name = fallbackRecord fb name) ∧
      (∀ r, search_uniprot_safe o = some r → resolveSequence o fb name = r) := by
  refine ⟨?_, ?_, ?_⟩
  · intro h
    cases o with
    | transportError m => rfl
    | response status body =>
      by_cases hs : raiseForStatus status = true
      · simp [search_uniprot_safe, hs]
      · have hs' : raiseForStatus status = false := by simpa using hs
        cases body with
        | error e => simp [search_uniprot_safe, hs']
        | ok data =>
          simp only [primaryMissCondition, hs', Bool.false_or] at h
          have hres : data.results = [] := by simpa [List.isEmpty_iff] using h
          simp [search_uniprot_safe, hs', hres]
  · intro h
    simp [resolveSequence, h]
  · intro r h
    simp [resolveSequence, h]

/-- C6 amended witness: a transport error yields no result and the chain
produces the fallback-derived record. -/
theorem claim_C6_amended_miss_then_fallback_witness :
    search_uniprot_safe (HttpOutcome.transportError "timeout") = none ∧
      resolveSequence (HttpOutcome.transportError "timeout")
        (FallbackOutcome.raises "also down") "TARDBP" =
        fallbackRecord (FallbackOutcome.raises "also down") "TARDBP" :=
  ⟨(claim_C6_amended_miss_then_fallback (HttpOutcome.transportError "timeout")
      (FallbackOutcome.raises "also down") "TARDBP").1 rfl,
    (claim_C6_amended_miss_then_fallback (HttpOutcome.transportError "timeout")
      (FallbackOutcome.raises "also down") "TARDBP").2.1 rfl⟩

/-- C7 counterexample: for a fallback response with no newline, the code
keeps the whole (stripped) text — `split('\x0an', 1)[-1]` of a one-line
string is the string itself — instead of discarding the first line as the
claim (and the spec-modelled post-processing) would. -/
theorem claim_C7_counterexample_no_newline :
    resolveSequence (HttpOutcome.transportError "e")
        (FallbackOutcome.ok "ABC DEF") "N" = ⟨"N", "ABCDEF", "GPT-4"⟩ ∧
      spec_gptPostProcess "ABC DEF" = "" ∧
      ("ABCDEF" : String) ≠ "" :=
  ⟨by decide, by decide, by decide⟩

/-- C7 amended: when the fallback succeeds, the record is the post-processed
text tagged `"GPT-4"`, where the post-processing strips the response, keeps
everything after the first newline when one exists — the whole text
otherwise — and removes only space characters (U+0020) from it. -/
theorem claim_C7_amended_fallback_postprocess (pri : HttpOutcome)
    (fb : FallbackOutcome) (name text : String)
    (hmiss : search_uniprot_safe pri = none)
    (hfb : fb = FallbackOutcome.ok text) :
    resolveSequence pri fb name = ⟨name, gptPostProcess text, "GPT-4"⟩ ∧
      (∀ c ∈ (gptPostProcess text).data, c ≠ spaceChar) ∧
      ((pyStrip text.data).contains nlChar = false →
        (gptPostProcess text).data = removeSpaces (pyStrip text.data)) ∧
      ((pyStrip text.data).contains nlChar = true →
        (gptPostProcess text).data =
          removeSpaces
            (((pyStrip text.data).dropWhile (fun c => c != nlChar)).tail)) := by
  refine ⟨?_, ?_, ?_, ?_⟩
  · simp [resolveSequence, hmiss, hfb, fallbackRecord]
  · intro c hc hceq
    subst hceq
    have h2 := List.of_mem_filter hc
    simp at h2
  · intro h
    unfold gptPostProcess afterFirstNewline
    rw [h]
    simp
  · intro h
    unfold gptPostProcess afterFirstNewline
    rw [h]
    simp

/-- C7 amended witness: a one-line fallback response keeps its whole text
with spaces removed. -/
theorem claim_C7_amended_fallback_postprocess_witness :
    resolveSequence (HttpOutcome.transportError "x")
        (FallbackOutcome.ok "RAW SEQ") "TARDBP" =
        ⟨"TARDBP", gptPostProcess "RAW SEQ", "GPT-4"⟩ ∧
      (∀ c ∈ (gptPostProcess "RAW SEQ").data, c ≠ spaceChar) ∧
      ((pyStrip ("RAW SEQ" : String).data).contains nlChar = false →
        (gptPostProcess "RAW SEQ").data =
          removeSpaces (pyStrip ("RAW SEQ" : String).data)) ∧
      ((pyStrip ("RAW SEQ" : String).data).contains nlChar = true →
        (gptPostProcess "RAW SEQ").data =
          removeSpaces
            (((pyStrip ("RAW SEQ" : String).data).dropWhile
              (fun c => c != nlChar)).tail)) :=
  claim_C7_amended_fallback_postprocess (HttpOutcome.transportError "x")
    (FallbackOutcome.ok "RAW SEQ") "TARDBP" "RAW SEQ" rfl rfl

/-- C8 counterexample: a payload whose first result has an empty sequence
value produces a `"UniProt"`-sourced record whose sequence is empty, so the
non-emptiness part of the claim fails for that payload. -/
theorem claim_C8_counterexample_empty_sequence :
    search_uniprot_safe
        (HttpOutcome.response 200 (Except.ok ⟨[⟨some "Nm", some ""⟩]⟩)) =
        some ⟨"Nm", "", "UniProt"⟩ ∧
      (SequenceRecord.mk "Nm" "" "UniProt").source = "UniProt" ∧
      (SequenceRecord.mk "Nm" "" "UniProt").sequence = "" :=
  ⟨rfl, rfl, rfl⟩

/-- C8 amended: whenever the primary lookup returns a result, the record is
tagged `"UniProt"` and its sequence equals the sequence value of the
payload's first result entry — non-empty exactly when the database sent a
non-empty value, empty when it sent an empty one. -/
theorem claim_C8_amended_primary_hit_shape (o : HttpOutcome)
    (r : SequenceRecord) (h : search_uniprot_safe o = some r) :
    r.source = "UniProt" ∧ firstProteinNameValue o = some r.name ∧
      firstSequenceValue o = some r.sequence ∧
      (firstSequenceValue o = some "" → r.sequence = "") := by
  obtain ⟨h1, h2, h3⟩ := search_success_inv o r h
  refine ⟨h1, h2, h3, ?_⟩
  intro he
  rw [h3] at he
  exact Option.some.inj he

/-- C8 amended witness: a 200 response with a non-empty sequence value. -/
theorem claim_C8_amended_primary_hit_shape_witness :
    (SequenceRecord.mk "Nm" "MSEQ" "UniProt").source = "UniProt" ∧
      firstProteinNameValue
        (HttpOutcome.response 200 (Except.ok ⟨[⟨some "Nm", some "MSEQ"⟩]⟩)) =
        some "Nm" ∧
      firstSequenceValue
        (HttpOutcome.response 200 (Except.ok ⟨[⟨some "Nm", some "MSEQ"⟩]⟩)) =
        some "MSEQ" ∧
      (firstSequenceValue
        (HttpOutcome.response 200 (Except.ok ⟨[⟨some "Nm", some "MSEQ"⟩]⟩)) =
          some "" → ("MSEQ" : String) = "") :=
  claim_C8_amended_primary_hit_shape
    (HttpOutcome.response 200 (Except.ok ⟨[⟨some "Nm", some "MSEQ"⟩]⟩))
    (SequenceRecord.mk "Nm" "MSEQ" "UniProt") rfl

/-- C9: on a non-empty record, `safe_protein_name` selects the `name` field's
value when present, else the `proteinName` field's value when present, else
the value of the field first in insertion order; in particular the SOD1
scenario entry normalizes to `"SOD1"`. -/
theorem claim_C9_record_field_priority (fields : List (String × String))
    (kv : String × String) (rest : List (String × String))
    (hf : fields = kv :: rest) :
    (∀ v, pyDictLookup fields "name" = some v →
        safe_protein_name (TargetEntry.record fields) = some v) ∧
      (∀ v, pyDictLookup fields "name" = none →
        pyDictLookup fields "proteinName" = some v →
        safe_protein_name (TargetEntry.record fields) = some v) ∧
      (pyDictLookup fields "name" = none →
        pyDictLookup fields "proteinName" = none →
        safe_protein_name (TargetEntry.record fields) = some kv.2) ∧
      safe_protein_name
        (TargetEntry.record [("proteinName", "SOD1"), ("accession", "P00441")]) =
        some "SOD1" := by
  subst hf
  refine ⟨?_, ?_, ?_, by decide⟩
  · intro v hv
    simp [safe_protein_name, hv]
  · intro v hn hp
    simp [safe_protein_name, hn, hp]
  · intro hn hp
    simp [safe_protein_name, hn, hp]

/-- C9 witness: the SOD1 scenario record, with `proteinName` present and
`name` absent. -/
theorem claim_C9_record_field_priority_witness :
    (∀ v, pyDictLookup [("proteinName", "SOD1"), ("accession", "P00441")]
          "name" = some v →
        safe_protein_name
          (TargetEntry.record [("proteinName", "SOD1"), ("accession", "P00441")]) =
          some v) ∧
      (∀ v, pyDictLookup [("proteinName", "SOD1"), ("accession", "P00441")]
          "name" = none →
        pyDictLookup [("proteinName", "SOD1"), ("accession", "P00441")]
          "proteinName" = some v →
        safe_protein_name
          (TargetEntry.record [("proteinName", "SOD1"), ("accession", "P00441")]) =
          some v) ∧
      (pyDictLookup [("proteinName", "SOD1"), ("accession", "P00441")]
          "name" = none →
        pyDictLookup [("proteinName", "SOD1"), ("accession", "P00441")]
          "proteinName" = none →
        safe_protein_name
          (TargetEntry.record [("proteinName", "SOD1"), ("accession", "P00441")]) =
          some "SOD1") ∧
      safe_protein_name
        (TargetEntry.record [("proteinName", "SOD1"), ("accession", "P00441")]) =
        some "SOD1" :=
  claim_C9_record_field_priority
    [("proteinName", "SOD1"), ("accession", "P00441")]
    ("proteinName", "SOD1") [("accession", "P00441")] rfl

/-- C10: fallback-produced and failure-produced records carry exactly the
input name, while a primary-hit record carries the display name extracted
from the database payload, which can differ from the input name (concrete
instance included). -/
theorem claim_C10_name_provenance (pri : HttpOutcome) (fb : FallbackOutcome)
    (name : String) :
    (search_uniprot_safe pri = none →
        (resolveSequence pri fb name).name = name) ∧
      (∀ r, search_uniprot_safe pri = some r →
        resolveSequence pri fb name = r ∧
          firstProteinNameValue pri = some r.name) ∧
      ((resolveSequence
          (HttpOutcome.response 200
            (Except.ok ⟨[⟨some "Superoxide dismutase 1", some "MSEQ"⟩]⟩))
          fb "SOD1").name = "Superoxide dismutase 1" ∧
        ("Superoxide dismutase 1" : String) ≠ "SOD1") := by
  refine ⟨?_, ?_, ?_, ?_⟩
  · intro h
    simp only [resolveSequence, h]
    cases fb <;> rfl
  · intro r h
    exact ⟨by simp [resolveSequence, h], (search_success_inv pri r h).2.1⟩
  · rfl
  · decide

/-- C10 witness: a total-failure record keeps the input name; a primary-hit
record takes the payload's display name. -/
theorem claim_C10_name_provenance_witness :
    (resolveSequence (HttpOutcome.transportError "t")
        (FallbackOutcome.raises "x") "SOD1").name = "SOD1" ∧
      (resolveSequence
          (HttpOutcome.response 200 (Except.ok ⟨[⟨some "Nm", some "S"⟩]⟩))
          (FallbackOutcome.raises "x") "in" = ⟨"Nm", "S", "UniProt"⟩ ∧
        firstProteinNameValue
          (HttpOutcome.response 200 (Except.ok ⟨[⟨some "Nm", some "S"⟩]⟩)) =
          some "Nm") :=
  ⟨(claim_C10_name_provenance (HttpOutcome.transportError "t")
      (FallbackOutcome.raises "x") "SOD1").1 rfl,
    (claim_C10_name_provenance
      (HttpOutcome.response 200 (Except.ok ⟨[⟨some "Nm", some "S"⟩]⟩))
      (FallbackOutcome.raises "x") "in").2.1 ⟨"Nm", "S", "UniProt"⟩ rfl⟩

end AgentPlatform
